import Mathlib

/-!
Verification of the name-resolution subsystem of source3/libsmb/namequery.c
(with lib/tevent/tevent_chain_id.c), as a shallow embedding in Lean 4.

Conventions of the embedding:

* `struct sockaddr_storage` / `struct samba_sockaddr` become `SockaddrStorage`:
  an address-family tag (`AF_INET = 2`, `AF_INET6 = 10`, `0` for a zeroed
  buffer) plus the address bytes.
* NTSTATUS values become the inductive `NTStatus`; only the constants the
  resolver uses are represented.
* Asynchronous tevent request chains become pure state machines: the events a
  request can receive (packets arriving before its deadline, sub-request
  completions) are passed in as lists, and each callback of the C source is a
  state-transition function.
* External collaborators that are not part of this repository's files
  (gencache, the packet codecs, interface enumeration, the DNS primitives,
  configuration access) are abstracted as parameters or, where their behaviour
  is pinned by the specification, modelled from the spec (each such definition
  says so in its doc comment).
-/

/-- Address family constant `AF_INET`. -/
def AF_INET : Nat := 2

/-- Address family constant `AF_INET6`. -/
def AF_INET6 : Nat := 10

/-- Embedding of `struct sockaddr_storage` (and `samba_sockaddr`): the
address family plus the raw address bytes (4 bytes for v4, 16 for v6). -/
structure SockaddrStorage where
  family : Nat
  bytes : List Nat
  deriving DecidableEq, Repr

/-- A zeroed `struct samba_sockaddr` as produced by `talloc_zero_array`:
family `0` (`AF_UNSPEC`), all bytes zero. -/
def zeroSa : SockaddrStorage := ⟨0, List.replicate 16 0⟩

/-- Build an IPv4 `SockaddrStorage` from four octets
(`in_addr_to_sockaddr_storage`). -/
def mkV4 (a b c d : Nat) : SockaddrStorage := ⟨AF_INET, [a, b, c, d]⟩

/-- Modelled from the spec: `is_zero_addr` (lib/util helper, not under the
staged sources): true exactly for the v4 `0.0.0.0` and the v6 `::` address. -/
def is_zero_addr (ss : SockaddrStorage) : Bool :=
  (ss.family == AF_INET || ss.family == AF_INET6) && ss.bytes.all (· == 0)

/-- The NTSTATUS values the resolver manipulates. -/
inductive NTStatus where
  | ok
  | unsuccessful
  | invalidParameter
  | invalidAddress
  | notFound
  | ioTimeout
  | noMemory
  | internalError
  | notSupported
  | connectionRefused
  | endOfFile
  deriving DecidableEq, Repr

/-- `#define KDC_NAME_TYPE 0xDCDC`: the synthetic name type selecting the
`_kerberos` SRV lookup; it never travels the wire. -/
def KDC_NAME_TYPE : Nat := 0xDCDC

/-- `#define PORT_NONE 0`: the "unspecified port" marker of `struct ip_service`. -/
def PORT_NONE : Nat := 0

/-- Embedding of `struct ip_service`: an address plus an optional port
(`PORT_NONE` = unspecified). -/
structure IpService where
  ss : SockaddrStorage
  port : Nat
  deriving DecidableEq, Repr

/-!
## DNS SRV + A/AAAA composition (`resolve_ads`, `dns_lookup_list_async`)

`struct dns_rr_srv` keeps, per SRV record, the target hostname and the
addresses already embedded in the SRV reply (`ss_s`/`num_ips`; `ss_s == NULL`
when none were embedded). The SRV query primitives
(`ads_dns_query_{pdc,dcs,kdcs}`) and the raw A/AAAA primitives
(`ads_dns_lookup_{a,aaaa}_send/_recv`) are external collaborators: the SRV
reply and the per-query A/AAAA results are parameters of the embedding.
-/

/-- Embedding of `struct dns_rr_srv` as `resolve_ads` consumes it: the target
hostname (`NULL` allowed) and the optionally present embedded IP array. -/
structure DnsRrSrv where
  hostname : Option String
  ips : Option (List SockaddrStorage)
  deriving DecidableEq, Repr

/-- The first pass of `resolve_ads` over the SRV reply: copy every embedded
IP address in record order, dropping zero addresses (the copy loop writes the
slot first and only advances `num_srv_addrs` past non-zero entries). -/
def srvEmbeddedAddrs (dcs : List DnsRrSrv) : List SockaddrStorage :=
  ((dcs.map (fun d => d.ips.getD [])).flatten).filter (fun s => !is_zero_addr s)

/-- The hostnames `resolve_ads` queues for A/AAAA lookup: records whose SRV
entry carried no embedded IPs (`ss_s == NULL`) and has a hostname (records
with embedded IPs had their hostname zeroed in the counting pass). -/
def dnsLookupNamesOf (dcs : List DnsRrSrv) : List String :=
  (dcs.filter (fun d => d.ips.isNone)).filterMap (fun d => d.hostname)

/-- The per-query results `dns_lookup_list_async` collects: for each name, an
A query followed by an AAAA query (the `HAVE_IPV6` build), in issue order.
`lookupA`/`lookupAAAA` give what each query's done-callback stored into
`state->queries[i].addrs`: the resolved addresses, or `[]` when the lookup
failed, returned a non-OK rcode, or returned no addresses. -/
def dnsQueriesOf (lookupA lookupAAAA : String → List SockaddrStorage)
    (names : List String) : List (List SockaddrStorage) :=
  names.flatMap (fun n => [lookupA n, lookupAAAA n])

/-- The copy phase of `dns_lookup_list_async` over the per-query results,
exactly as written in the source: `addr_out` is a zeroed array of
`Σ query->num_addrs` slots, and for each query the loop runs
`for (j = 0; j < query->num_addrs; j++) { addr_out[num_addrs] = query->addrs[j]; }`
— the destination index is `num_addrs`, NOT `num_addrs + j`, so every address
of a query lands in the same slot (the query's last address survives) and the
query's remaining slots keep their `talloc_zero` value. -/
def dns_lookup_list_async (queries : List (List SockaddrStorage)) :
    List SockaddrStorage :=
  queries.foldl
    (fun acc q =>
      if q.isEmpty then acc
      else acc ++ (q.getLastD zeroSa :: List.replicate (q.length - 1) zeroSa))
    []

/-- Embedding of `resolve_ads`: the name-type gate, the SRV split into
embedded addresses vs. hostnames, the async A/AAAA batch, and the final
`srv_addrs`-then-`dns_addrs` merge (`ret_addrs[i] = srv_addrs[i]`;
`ret_addrs[num_srv_addrs+i] = dns_addrs[i].u.ss`). `srvResult` abstracts the
`ads_dns_query_*` call selected by `name_type`. -/
def resolve_ads (name_type : Nat)
    (srvResult : Except NTStatus (List DnsRrSrv))
    (lookupA lookupAAAA : String → List SockaddrStorage) :
    Except NTStatus (List SockaddrStorage) :=
  if name_type ≠ 0x1c && name_type ≠ KDC_NAME_TYPE && name_type ≠ 0x1b then
    .error .invalidParameter
  else
    match srvResult with
    | .error e => .error e
    | .ok dcs =>
      if dcs.isEmpty then .ok []
      else
        let srv_addrs := srvEmbeddedAddrs dcs
        let dns_addrs :=
          dns_lookup_list_async (dnsQueriesOf lookupA lookupAAAA (dnsLookupNamesOf dcs))
        .ok (srv_addrs ++ dns_addrs)

/-- The specification's wording of §4.8 for comparison ("The final result is
`srv_addrs ++ dns_addrs` (order preserved: SRV addresses first, then
DNS-resolved, in query-issue order)"): every address each A/AAAA query
resolved appears, in query-issue order. -/
def resolve_ads_spec (name_type : Nat)
    (srvResult : Except NTStatus (List DnsRrSrv))
    (lookupA lookupAAAA : String → List SockaddrStorage) :
    Except NTStatus (List SockaddrStorage) :=
  if name_type ≠ 0x1c && name_type ≠ KDC_NAME_TYPE && name_type ≠ 0x1b then
    .error .invalidParameter
  else
    match srvResult with
    | .error e => .error e
    | .ok dcs =>
      if dcs.isEmpty then .ok []
      else
        let srv_addrs := srvEmbeddedAddrs dcs
        let dns_addrs :=
          (dnsQueriesOf lookupA lookupAAAA (dnsLookupNamesOf dcs)).flatten
        .ok (srv_addrs ++ dns_addrs)

/-- The A-lookup environment of the C1 failing input: `dc2.example.com`
resolves to two addresses. -/
def c1LookupA : String → List SockaddrStorage :=
  fun _ => [mkV4 192 0 2 2, mkV4 192 0 2 3]

/-- The AAAA-lookup environment of the C1 failing input: no v6 addresses. -/
def c1LookupAAAA : String → List SockaddrStorage :=
  fun _ => []

/-- The SRV reply of the C1 failing input: a single record carrying only a
hostname, no embedded IPs. -/
def c1Dcs : List DnsRrSrv := [⟨some "dc2.example.com", none⟩]

/-!
## String helpers

`strequal` in Samba is a case-insensitive comparison; the embedding works on
the character data of the `String` so every use reduces in the kernel.
-/

/-- ASCII lower-casing of a code point, for `strequal`. -/
def lowerNat (n : Nat) : Nat := if 65 ≤ n ∧ n ≤ 90 then n + 32 else n

/-- Embedding of `strequal`: case-insensitive (ASCII) string equality. -/
def strequal (a b : String) : Bool :=
  a.data.map (fun c => lowerNat c.toNat) == b.data.map (fun c => lowerNat c.toNat)

/-- `strchr(name, '.') != NULL`. -/
def hasDot (s : String) : Bool := s.data.any (· == '.')

/-- `strlen(name)` (the names involved are ASCII, so characters = bytes). -/
def strLen (s : String) : Nat := s.data.length

/-!
## IP-literal parsing

`is_ipaddress` and `interpret_string_addr` live in lib/util outside the staged
sources; they are modelled from the spec as a single partial parse: a name
either parses as a numeric IP literal (possibly the zero address) or it does
not.
-/

/-- Split a character list on `'.'`. -/
def splitDots : List Char → List (List Char)
  | [] => [[]]
  | c :: rest =>
    let r := splitDots rest
    if c == '.' then [] :: r
    else
      match r with
      | h :: t => (c :: h) :: t
      | [] => [[c]]

/-- Parse a decimal octet: one to three digits, value at most 255. -/
def parseOctet (cs : List Char) : Option Nat :=
  if cs.isEmpty || cs.length > 3 || !cs.all (fun c => 48 ≤ c.toNat && c.toNat ≤ 57) then
    none
  else
    let v := cs.foldl (fun a c => a * 10 + (c.toNat - 48)) 0
    if v ≤ 255 then some v else none

/-- Modelled from the spec: the numeric IP-literal parse behind `is_ipaddress`
plus `interpret_string_addr(…, AI_NUMERICHOST)`. Dotted-quad IPv4 literals and
the v6 zero literal `::` (the two literal shapes the verified claims exercise)
parse; everything else does not. -/
def modelParseIP (s : String) : Option SockaddrStorage :=
  match splitDots s.data with
  | [a, b, c, d] =>
    match parseOctet a, parseOctet b, parseOctet c, parseOctet d with
    | some x, some y, some z, some w => some (mkV4 x y z w)
    | _, _, _, _ => none
  | _ => if s == "::" then some ⟨AF_INET6, List.replicate 16 0⟩ else none

/-!
## Pipeline driver (`internal_resolve_name`) and wrappers

The driver's collaborators are abstracted into `ResolveEnv`:
* `parseIP` — the IP-literal parse (see `modelParseIP`);
* `cacheFetch` — `namecache_fetch` (gencache-backed, external);
* `run` — the resolution backends (`resolve_hosts`, `resolve_ads`,
  `resolve_lmhosts_file_as_sockaddr`, `resolve_wins`, `name_resolve_bcast`),
  keyed by which backend is called and with which name type.

The outcome records, besides status and list, the effects the claims speak
about: which backends were dispatched, whether the name cache was consulted,
and what (if anything) was stored back into the name cache.
-/

/-- A dispatch of one resolution backend by the driver, with the name type it
was handed. -/
inductive BackendCall where
  | hosts (name : String) (ty : Nat)
  | ads (name : String) (ty : Nat)
  | lmhosts (name : String) (ty : Nat)
  | wins (name : String) (ty : Nat)
  | bcast (name : String) (ty : Nat)
  deriving DecidableEq, Repr

/-- Is the call one of the NBT-transported backends (`lmhosts`, `wins`,
`bcast`)? -/
def BackendCall.isNbt : BackendCall → Bool
  | .lmhosts _ _ => true
  | .wins _ _ => true
  | .bcast _ _ => true
  | _ => false

/-- The driver's external collaborators. -/
structure ResolveEnv where
  parseIP : String → Option SockaddrStorage
  cacheFetch : String → Nat → Option (List SockaddrStorage)
  run : BackendCall → Except NTStatus (List SockaddrStorage)

/-- What one `internal_resolve_name` call did: final status and list, the
backends dispatched (in order), whether `namecache_fetch` was consulted, and
the `namecache_store` performed on success (name, name type, addresses). -/
structure ResolveOutcome where
  status : NTStatus
  iplist : List IpService
  dispatched : List BackendCall
  cacheConsulted : Bool
  cacheStored : Option (String × Nat × List SockaddrStorage)
  deriving DecidableEq, Repr

/-- Worker for `remove_duplicate_addrs2`: `seen` holds the entries already
kept; an entry is dropped when its address is zero or its `(address, port)`
pair equals an already-kept entry. -/
def removeDupAux (seen : List IpService) : List IpService → List IpService
  | [] => []
  | y :: ys =>
    if is_zero_addr y.ss || seen.any (fun x => x.ss == y.ss && x.port == y.port) then
      removeDupAux seen ys
    else
      y :: removeDupAux (seen ++ [y]) ys

/-- Embedding of `remove_duplicate_addrs2`: zero out every later entry whose
`(address, port)` pair equals an earlier non-zero entry, then compact away all
zero addresses. Equivalently: drop zero addresses and keep the first
occurrence of each `(address, port)` pair. -/
def remove_duplicate_addrs2 (iplist : List IpService) : List IpService :=
  removeDupAux [] iplist

/-- Embedding of `filter_out_nbt_lookup`: drop the `lmhosts`, `wins` and
`bcast` tokens, keeping the rest in order. -/
def filter_out_nbt_lookup : List String → List String
  | [] => []
  | tok :: rest =>
    if strequal tok "lmhosts" || strequal tok "wins" || strequal tok "bcast" then
      filter_out_nbt_lookup rest
    else
      tok :: filter_out_nbt_lookup rest

/-- The NBT-eligibility test of the driver:
`strlen(name) > MAX_NETBIOSNAME_LEN - 1 || strchr(name, '.') != NULL`, with
`MAX_NETBIOSNAME_LEN = 16` so the length cutoff is 15. -/
def nbtIneligible (name : String) : Bool :=
  decide (strLen name > 15) || hasDot name

/-- The resolve order the driver actually iterates: the NBT backends are
filtered out exactly for NBT-ineligible names. -/
def effectiveResolveOrder (name : String) (order : List String) : List String :=
  if nbtIneligible name then filter_out_nbt_lookup order else order

/-- The driver's backend loop: walk the (already filtered) resolve order,
dispatching each recognised token and stopping at the first success; `wins`
is skipped for name type `0x1D`; unrecognised tokens are logged and skipped;
a failing backend leaves its status as the running "last error". Returns the
final status, the successful backend's list together with the (possibly
kdc-overridden) name type, and the dispatch log. -/
def runBackends (env : ResolveEnv) (name : String) (name_type : Nat) :
    List String → NTStatus → List BackendCall →
    NTStatus × Option (List SockaddrStorage × Nat) × List BackendCall
  | [], last, log => (last, none, log)
  | tok :: rest, last, log =>
    if strequal tok "host" || strequal tok "hosts" then
      match env.run (.hosts name name_type) with
      | .ok l => (.ok, some (l, name_type), log ++ [.hosts name name_type])
      | .error e => runBackends env name name_type rest e (log ++ [.hosts name name_type])
    else if strequal tok "kdc" then
      match env.run (.ads name KDC_NAME_TYPE) with
      | .ok l => (.ok, some (l, KDC_NAME_TYPE), log ++ [.ads name KDC_NAME_TYPE])
      | .error e => runBackends env name name_type rest e (log ++ [.ads name KDC_NAME_TYPE])
    else if strequal tok "ads" then
      match env.run (.ads name name_type) with
      | .ok l => (.ok, some (l, name_type), log ++ [.ads name name_type])
      | .error e => runBackends env name name_type rest e (log ++ [.ads name name_type])
    else if strequal tok "lmhosts" then
      match env.run (.lmhosts name name_type) with
      | .ok l => (.ok, some (l, name_type), log ++ [.lmhosts name name_type])
      | .error e => runBackends env name name_type rest e (log ++ [.lmhosts name name_type])
    else if strequal tok "wins" then
      if name_type == 0x1D then runBackends env name name_type rest last log
      else
        match env.run (.wins name name_type) with
        | .ok l => (.ok, some (l, name_type), log ++ [.wins name name_type])
        | .error e => runBackends env name name_type rest e (log ++ [.wins name name_type])
    else if strequal tok "bcast" then
      match env.run (.bcast name name_type) with
      | .ok l => (.ok, some (l, name_type), log ++ [.bcast name name_type])
      | .error e => runBackends env name name_type rest e (log ++ [.bcast name name_type])
    else
      runBackends env name name_type rest last log

/-- Embedding of `convert_ss2service`: fail (`false`, mapped by the driver to
`NT_STATUS_NO_MEMORY`) when the input is empty or holds only zero addresses;
otherwise the non-zero addresses, each with port `PORT_NONE`. -/
def convert_ss2service (ss_list : List SockaddrStorage) : Option (List IpService) :=
  if ss_list.isEmpty then none
  else
    let kept := ss_list.filter (fun s => !is_zero_addr s)
    if kept.isEmpty then none
    else some (kept.map (fun s => ⟨s, PORT_NONE⟩))

/-- The `done:` tail of `internal_resolve_name`: convert the backend's list,
dedupe, and store a non-empty result in the name cache under the (possibly
kdc-overridden) name type. -/
def finishResolve (name : String) (backendStatus : NTStatus)
    (ss_list : List SockaddrStorage) (stored_type : Nat)
    (dispatched : List BackendCall) : ResolveOutcome :=
  match convert_ss2service ss_list with
  | none => ⟨.noMemory, [], dispatched, true, none⟩
  | some iplist0 =>
    let iplist := remove_duplicate_addrs2 iplist0
    let stored :=
      if iplist.isEmpty then none
      else some (name, stored_type, iplist.map (fun i => i.ss))
    ⟨backendStatus, iplist, dispatched, true, stored⟩

/-- Embedding of `internal_resolve_name`: IP-literal short-circuit (rejecting
the zero address), name-cache consultation, the `"NULL"` gate, the default
`["host"]` order, NBT-eligibility filtering, backend iteration, and the
success tail (zero filter, dedupe, name-cache store). -/
def internal_resolve_name (env : ResolveEnv) (name : String) (name_type : Nat)
    (resolve_order : List String) : ResolveOutcome :=
  match env.parseIP name with
  | some ss =>
    if is_zero_addr ss then ⟨.unsuccessful, [], [], false, none⟩
    else ⟨.ok, [⟨ss, PORT_NONE⟩], [], false, none⟩
  | none =>
    match env.cacheFetch name name_type with
    | some sa_list =>
      let iplist :=
        remove_duplicate_addrs2
          ((sa_list.filter (fun s => !is_zero_addr s)).map (fun s => ⟨s, 0⟩))
      if iplist.isEmpty then ⟨.unsuccessful, [], [], true, none⟩
      else ⟨.ok, iplist, [], true, none⟩
    | none =>
      if resolve_order.head? == some "NULL" then
        ⟨.invalidParameter, [], [], true, none⟩
      else
        let order0 := if resolve_order.isEmpty then ["host"] else resolve_order
        let order := effectiveResolveOrder name order0
        match runBackends env name name_type order .unsuccessful [] with
        | (last, none, log) => ⟨last, [], log, true, none⟩
        | (st, some (ss_list, stored_type), log) =>
          finishResolve name st ss_list stored_type log

/-- Modelled from the spec: `is_broadcast_addr` (lib/util helper): true for
the IPv4 limited-broadcast address. -/
def is_broadcast_addr (ss : SockaddrStorage) : Bool :=
  ss.family == AF_INET && ss.bytes == [255, 255, 255, 255]

/-- Embedding of `resolve_name`: the IP-literal short-circuit returns
`interpret_string_addr`'s parse directly (note: without any zero-address
check); otherwise run the driver and return the first non-broadcast address,
trying IPv4-only first when `prefer_ipv4` is set. -/
def resolve_name (env : ResolveEnv) (name : String) (name_type : Nat)
    (prefer_ipv4 : Bool) (order : List String) : Option SockaddrStorage :=
  match env.parseIP name with
  | some ss => some ss
  | none =>
    let r := internal_resolve_name env name name_type order
    if r.status == .ok then
      let v4first :=
        if prefer_ipv4 then
          (r.iplist.find? (fun i =>
            !is_broadcast_addr i.ss && i.ss.family == AF_INET)).map (fun i => i.ss)
        else none
      match v4first with
      | some ss => some ss
      | none =>
        (r.iplist.find? (fun i => !is_broadcast_addr i.ss)).map (fun i => i.ss)
    else none

/-!
## Address ranking (`addr_compare`, `sort_addr_list`)

`iface_count`/`iface_n_bcast`/`iface_local` are external interface
enumeration; they become `IfaceEnv`. `matching_len_bits` lives outside the
staged sources and is modelled from the spec ("the number of leading bits it
shares with that interface's address"). `TYPESAFE_QSORT` is the C library
qsort: its contract — a permutation of the input that is sorted by the
comparator — is realised here by an insertion sort over the same comparator.
-/

/-- The local-interface environment: the per-interface addresses
(`iface_n_bcast`) and the `iface_local` predicate. -/
structure IfaceEnv where
  ifaces : List SockaddrStorage
  ifaceLocal : SockaddrStorage → Bool

/-- Leading bits shared by two bytes, counted from the most significant bit. -/
def matchingBitsInByte (b1 b2 : Nat) : Nat :=
  ((List.range 8).takeWhile
    (fun k => b1 / 2 ^ (7 - k) % 2 == b2 / 2 ^ (7 - k) % 2)).length

/-- Modelled from the spec: `matching_len_bits` (interface helper outside the
staged sources): the number of leading bits two addresses share. -/
def matching_len_bits : List Nat → List Nat → Nat
  | b1 :: r1, b2 :: r2 =>
    if b1 == b2 then 8 + matching_len_bits r1 r2 else matchingBitsInByte b1 b2
  | _, _ => 0

/-- The address bytes `addr_compare` feeds to `matching_len_bits`: 4 bytes
for v4, 16 for v6. -/
def addrBytes (ss : SockaddrStorage) : List Nat :=
  ss.bytes.take (if ss.family == AF_INET then 4 else 16)

/-- Both `sockaddr_storage_to_samba_sockaddr` conversions succeed only for
the inet families; `addr_compare` returns 0 ("no change") otherwise. -/
def validFamily (ss : SockaddrStorage) : Bool :=
  ss.family == AF_INET || ss.family == AF_INET6

/-- The per-address score inside `addr_compare`: the maximum, over local
interfaces of the same family, of the leading bits shared with that
interface, plus the `iface_local` bonus (`+32` v4, `+128` v6). -/
def proximityScore (env : IfaceEnv) (ss : SockaddrStorage) : Nat :=
  (env.ifaces.foldl
    (fun m i =>
      if i.family == ss.family then max m (matching_len_bits (addrBytes ss) (addrBytes i))
      else m)
    0)
  + (if env.ifaceLocal ss then (if ss.family == AF_INET then 32 else 128) else 0)

/-- Embedding of `addr_compare`: 0 when either conversion fails; IPv4 sorts
before IPv6 when the families differ; otherwise the difference of the
proximity scores (`max_bits2 - max_bits1`, so a larger score sorts first). -/
def addr_compare (env : IfaceEnv) (ss1 ss2 : SockaddrStorage) : Int :=
  if !validFamily ss1 || !validFamily ss2 then 0
  else if ss1.family ≠ ss2.family then
    (if ss2.family == AF_INET then 1 else -1)
  else
    (proximityScore env ss2 : Int) - (proximityScore env ss1 : Int)

/-- The "sorts no later than" relation induced by `addr_compare`. -/
def addrLe (env : IfaceEnv) (a b : SockaddrStorage) : Bool :=
  addr_compare env a b ≤ 0

/-- Insertion step of the qsort model: place `a` before the first element it
compares no later than. -/
def orderedInsertCmp (le : α → α → Bool) (a : α) : List α → List α
  | [] => [a]
  | b :: l => if le a b then a :: b :: l else b :: orderedInsertCmp le a l

/-- The qsort model: an insertion sort over the given comparator. -/
def insertionSortCmp (le : α → α → Bool) : List α → List α
  | [] => []
  | b :: l => orderedInsertCmp le b (insertionSortCmp le l)

/-- Embedding of `sort_addr_list`: lists of at most one element are returned
unchanged; otherwise sort by `addr_compare` (qsort modelled as insertion
sort, see above). -/
def sort_addr_list (env : IfaceEnv) (l : List SockaddrStorage) : List SockaddrStorage :=
  if l.length ≤ 1 then l else insertionSortCmp (addrLe env) l

/-!
## Name query (`name_query_send` / `name_query_validator` / `name_query_recv`)

A parsed NBT name-query response (`struct nmb_packet` as the validator reads
it) carries the header fields and the first answer RR's RDATA, which is
`rdlength/6` records of `(flags: uint16 BE, ip: 4 bytes)`. The packets the
transaction delivers to the validator before the caller's deadline fires are
passed as a list; transaction-id filtering and packet-type filtering happened
below in `sock_packet_read` (see its own embedding later).
-/

/-- The fields of a parsed NBT response the name-query validator reads. -/
structure NmbPacket where
  opcode : Nat
  response : Bool
  bcastFlag : Bool
  authoritative : Bool
  trunc : Bool
  recursionDesired : Bool
  recursionAvailable : Bool
  rcode : Nat
  ancount : Nat
  answerRecs : List (Nat × List Nat)
  deriving DecidableEq, Repr

/-- `NM_FLAGS_*` (nameserv.h, outside the staged sources; values per the
NBT header flag layout the spec describes). -/
def NM_FLAGS_RS : Nat := 0x80

/-- `NM_FLAGS_AA`. -/
def NM_FLAGS_AA : Nat := 0x40

/-- `NM_FLAGS_TC`. -/
def NM_FLAGS_TC : Nat := 0x20

/-- `NM_FLAGS_RD`. -/
def NM_FLAGS_RD : Nat := 0x10

/-- `NM_FLAGS_RA`. -/
def NM_FLAGS_RA : Nat := 0x08

/-- `NM_FLAGS_B`. -/
def NM_FLAGS_B : Nat := 0x01

/-- Per-request state of `struct name_query_state` as the validator mutates
it. -/
structure QState where
  bcast : Bool
  bcast_star_query : Bool
  validate_error : NTStatus
  flags : Nat
  addrs : List SockaddrStorage
  deriving DecidableEq, Repr

/-- The state `name_query_send` creates: `bcast_star_query` is set exactly
for a broadcast query on the literal name `"*"`; `validate_error` starts OK;
no addresses collected. -/
def initQState (name : String) (bcast : Bool) : QState :=
  ⟨bcast, bcast && name == "*", .ok, 0, []⟩

/-- The address-collection loop of `name_query_validator`: read each 6-byte
record's IP, skip the zero address, skip addresses already collected
(`sockaddr_equal`), append the rest in record order. -/
def collectAnswerAddrs (existing : List SockaddrStorage) :
    List (Nat × List Nat) → List SockaddrStorage
  | [] => existing
  | (_, ip) :: rest =>
    let addr : SockaddrStorage := ⟨AF_INET, ip⟩
    if is_zero_addr addr || existing.contains addr then
      collectAnswerAddrs existing rest
    else
      collectAnswerAddrs (existing ++ [addr]) rest

/-- `got_unique_netbios_name`: some answer record has the group bit
(`0x8000`) clear. -/
def gotUniqueName (recs : List (Nat × List Nat)) : Bool :=
  recs.any (fun r => r.1 &&& 0x8000 == 0)

/-- The flags `name_query_validator` folds back into the state from the
response header. -/
def foldHeaderFlags (flags : Nat) (p : NmbPacket) : Nat :=
  let f := flags
  let f := if p.response then f ||| NM_FLAGS_RS else f
  let f := if p.authoritative then f ||| NM_FLAGS_AA else f
  let f := if p.trunc then f ||| NM_FLAGS_TC else f
  let f := if p.recursionDesired then f ||| NM_FLAGS_RD else f
  let f := if p.recursionAvailable then f ||| NM_FLAGS_RA else f
  let f := if p.bcastFlag then f ||| NM_FLAGS_B else f
  f

/-- Embedding of `name_query_validator`: returns whether the packet is
accepted (completing the transaction) and the updated state.

* A response with `opcode == 0`, `rcode != 0` on a non-broadcast query is a
  negative WINS answer: accepted, with `validate_error = NT_STATUS_NOT_FOUND`.
* A response with wrong opcode, the broadcast header bit, a non-zero rcode or
  no answers is discarded (state untouched).
* Otherwise collect the addresses and fold the flags; broadcast queries
  accept exactly when a unique (non-group) name was seen and this is not the
  `"*"` wildcard query; non-broadcast queries accept every such response. -/
def name_query_validator (st : QState) (p : NmbPacket) : Bool × QState :=
  if p.opcode == 0 && !st.bcast && p.rcode ≠ 0 then
    (true, { st with validate_error := .notFound })
  else if p.opcode ≠ 0 || p.bcastFlag || p.rcode ≠ 0 || p.ancount == 0 then
    (false, st)
  else
    let got_unique := gotUniqueName p.answerRecs
    let st' := { st with
      addrs := collectAnswerAddrs st.addrs p.answerRecs,
      flags := foldHeaderFlags st.flags p }
    if st'.bcast then (got_unique && !st'.bcast_star_query, st') else (true, st')

/-- Feed the packets arriving before the deadline through the validator:
stop at the first accepted packet (`true`), otherwise run out (`false` =
the deadline fires). -/
def runPackets (st : QState) : List NmbPacket → QState × Bool
  | [] => (st, false)
  | p :: ps =>
    match name_query_validator st p with
    | (true, st') => (st', true)
    | (false, st') => runPackets st' ps

/-- Embedding of `name_query_recv`: a broadcast query's `IO_TIMEOUT` is
re-labelled OK; any remaining error is surfaced; an empty collected set is
`NT_STATUS_NOT_FOUND`; otherwise the collected addresses, sorted by
`sort_addr_list`. -/
def name_query_recv (env : IfaceEnv) (st : QState) (status : NTStatus) :
    Except NTStatus (List SockaddrStorage) :=
  let status := if st.bcast && status == .ioTimeout then NTStatus.ok else status
  if status ≠ .ok then .error status
  else if st.addrs.isEmpty then .error .notFound
  else .ok (sort_addr_list env st.addrs)

/-- One whole `name_query` against the packets delivered before its deadline:
run the validator over them (`nb_trans` completes at the first accepted
packet, else the deadline fires as `IO_TIMEOUT`), apply `name_query_done`'s
`validate_error` override, and hand the result to `name_query_recv`. -/
def name_query_result (env : IfaceEnv) (name : String) (bcast : Bool)
    (ps : List NmbPacket) : Except NTStatus (List SockaddrStorage) :=
  let r := runPackets (initQState name bcast) ps
  let status := if r.2 then r.1.validate_error else NTStatus.ioTimeout
  name_query_recv env r.1 status

/-- The packet-level acceptance condition of a broadcast (non-wildcard)
query, for stating the early-exit law: a well-formed positive response whose
answers include a unique (non-group) name. -/
def bcastAccept (p : NmbPacket) : Bool :=
  p.opcode == 0 && !p.bcastFlag && p.rcode == 0 && p.ancount ≠ 0 &&
    gotUniqueName p.answerRecs

/-!
## WINS sequencer (`query_wins_list`)

Each server in the tag's list is queried in turn by a unicast `name_query`
whose end-time is set 2 seconds out (`timeval_current_ofs(2, 0)`); the
outcome each server's query produced (what `name_query_recv` returned —
success with addresses, `NT_STATUS_IO_TIMEOUT` from that 2-second deadline,
or another error such as the negative-response `NT_STATUS_NOT_FOUND`) is
paired with the server. The sequencer returns the tag's result together with
the servers passed to `wins_srv_died`.
-/

/-- Embedding of `query_wins_list_send`/`query_wins_list_done` over the
per-server query outcomes: an empty server list fails with
`NT_STATUS_NOT_FOUND`; a success completes the tag; a non-timeout error fails
the tag immediately; a timeout marks the server dead and advances, failing
with `NT_STATUS_NOT_FOUND` when the servers are exhausted. -/
def query_wins_list {α : Type}
    (servers : List (α × Except NTStatus (List SockaddrStorage))) :
    Except NTStatus (List SockaddrStorage) × List α :=
  match servers with
  | [] => (.error .notFound, [])
  | (srv, outcome) :: rest =>
    match outcome with
    | .ok addrs => (.ok addrs, [])
    | .error e =>
      if e == .ioTimeout then
        let r := query_wins_list rest
        (r.1, srv :: r.2)
      else
        (.error e, [])

/-!
## Packet race engine (`sock_packet_read`)

The request races a relay-reader read (`nb_packet_read_send`) against a
socket `recvfrom`. Initially (reader present) both sub-waits are
outstanding. Each arriving sub-event drives the matching callback of the C
source; the run folds a list of events over the state.
-/

/-- State of a `sock_packet_read` request: which sub-waits are outstanding
and, once completed, the surfaced result. -/
structure SprState where
  readerOutstanding : Bool
  socketOutstanding : Bool
  result : Option (Except NTStatus NmbPacket)
  deriving Repr

/-- The initial race state with a relay reader present: both sub-waits
armed, no result. -/
def sprInit : SprState := ⟨true, true, none⟩

/-- What one of the two racing paths delivers. -/
inductive SprEvent where
  | readerFail (e : NTStatus)
  | readerPacket (p : NmbPacket)
  | socketFail (e : NTStatus)
  | socketDatagram (srcIsV4 : Bool) (parsed : Option NmbPacket) (trnId : Int)

/-- Embedding of `sock_packet_read_got_packet`: the reader sub-wait is
freed; a reader failure is swallowed while the socket read is still
outstanding and surfaces the reader's status only when the socket has already
failed; a validator-rejected packet re-arms a fresh reader read; an accepted
packet cancels the socket read and completes the request. -/
def sock_packet_read_got_packet (validator : NmbPacket → Bool) (st : SprState) :
    Except NTStatus NmbPacket → SprState
  | .error e =>
    if st.socketOutstanding then { st with readerOutstanding := false }
    else { st with readerOutstanding := false, result := some (.error e) }
  | .ok p =>
    if validator p then
      { readerOutstanding := false, socketOutstanding := false,
        result := some (.ok p) }
    else
      { st with readerOutstanding := true }

/-- Embedding of `sock_packet_read_got_socket`: the socket sub-wait is
freed; a receive failure is swallowed while the reader is still outstanding
and surfaces the mapped socket error only when the reader has already failed;
a non-IPv4 source, an unparsable datagram, a transaction-id mismatch or a
validator rejection re-arm the socket read; an accepted packet completes the
request. -/
def sock_packet_read_got_socket (validator : NmbPacket → Bool) (trn_id : Int)
    (st : SprState) (srcIsV4 : Bool) (parsed : Option NmbPacket)
    (pktTrnId : Int) (recvErr : Option NTStatus) : SprState :=
  match recvErr with
  | some e =>
    if st.readerOutstanding then { st with socketOutstanding := false }
    else { st with socketOutstanding := false, result := some (.error e) }
  | none =>
    if !srcIsV4 then { st with socketOutstanding := true }
    else
      match parsed with
      | none => { st with socketOutstanding := true }
      | some p =>
        if trn_id ≠ -1 && trn_id ≠ pktTrnId then
          { st with socketOutstanding := true }
        else if !validator p then
          { st with socketOutstanding := true }
        else
          { readerOutstanding := false, socketOutstanding := false,
            result := some (.ok p) }

/-- Drive one event into the race state: events for a path that is not
outstanding, or after completion, are impossible in tevent and leave the
state unchanged. -/
def sprStep (validator : NmbPacket → Bool) (trn_id : Int) (st : SprState) :
    SprEvent → SprState
  | .readerFail e =>
    if st.result.isSome || !st.readerOutstanding then st
    else sock_packet_read_got_packet validator st (.error e)
  | .readerPacket p =>
    if st.result.isSome || !st.readerOutstanding then st
    else sock_packet_read_got_packet validator st (.ok p)
  | .socketFail e =>
    if st.result.isSome || !st.socketOutstanding then st
    else sock_packet_read_got_socket validator trn_id st true none 0 (some e)
  | .socketDatagram v4 parsed pid =>
    if st.result.isSome || !st.socketOutstanding then st
    else sock_packet_read_got_socket validator trn_id st v4 parsed pid none

/-- Fold a whole event sequence through the race engine. -/
def sprRun (validator : NmbPacket → Bool) (trn_id : Int)
    (events : List SprEvent) : SprState :=
  events.foldl (sprStep validator trn_id) sprInit

/-!
## Concrete instantiations used by witnesses and counterexamples
-/

/-- A driver environment with the model IP parse, an empty name cache and
backends that all fail. -/
def envNoBackend : ResolveEnv :=
  ⟨modelParseIP, fun _ _ => none, fun _ => .error .unsuccessful⟩

/-- A driver environment whose `resolve_ads` backend succeeds exactly for the
forced KDC name type. -/
def envKdc : ResolveEnv :=
  ⟨modelParseIP, fun _ _ => none, fun c =>
    match c with
    | .ads _ ty => if ty == KDC_NAME_TYPE then .ok [mkV4 192 0 2 7] else .error .unsuccessful
    | _ => .error .unsuccessful⟩

/-- An interface environment with no local interfaces. -/
def emptyIfaceEnv : IfaceEnv := ⟨[], fun _ => false⟩

/-- A negative name-query response: `opcode 0`, `rcode 3` (name error), no
answers. -/
def negativePacket : NmbPacket :=
  ⟨0, true, false, false, false, false, false, 3, 0, []⟩

/-- A positive name-query response carrying a group record for `1.1.1.1` and
a unique record for `2.2.2.2`. -/
def positivePacket : NmbPacket :=
  ⟨0, true, false, true, false, false, true, 0, 1, [(0x8000, [1, 1, 1, 1]), (0, [2, 2, 2, 2])]⟩

/-- Did a per-server WINS query end in the 2-second deadline firing
(`NT_STATUS_IO_TIMEOUT`)? -/
def isTimeoutOutcome : Except NTStatus (List SockaddrStorage) → Bool
  | .error e => e == .ioTimeout
  | .ok _ => false

/-- Is a resolve-order token one of the NBT-transported backends filtered by
`filter_out_nbt_lookup`? -/
def isNbtTok (t : String) : Bool :=
  strequal t "lmhosts" || strequal t "wins" || strequal t "bcast"

/-!
## Theorems
-/

/-- C1. The claim states that a successful `resolve_ads` returns
`srv_addrs ++ dns_addrs` with every address resolved from the SRV hostnames,
in query-issue order. The code diverges: the copy loop of
`dns_lookup_list_async` writes `addr_out[num_addrs] = query->addrs[j]`
(the `+ j` is missing, unlike the `dns_names_ret[num_addrs + j]` loop just
above it), so of a query that resolved two addresses only the last one
appears, followed by a zeroed slot. Evaluated here at the failing input:
one SRV record with hostname `dc2.example.com` and no embedded IPs, whose A
lookup returns `192.0.2.2` and `192.0.2.3`. -/
theorem C1_dns_lookup_copy_divergence :
    resolve_ads 0x1c (.ok c1Dcs) c1LookupA c1LookupAAAA
        = .ok [mkV4 192 0 2 3, zeroSa]
    ∧ resolve_ads_spec 0x1c (.ok c1Dcs) c1LookupA c1LookupAAAA
        = .ok [mkV4 192 0 2 2, mkV4 192 0 2 3]
    ∧ resolve_ads 0x1c (.ok c1Dcs) c1LookupA c1LookupAAAA
        ≠ resolve_ads_spec 0x1c (.ok c1Dcs) c1LookupA c1LookupAAAA := by
  refine ⟨rfl, rfl, ?_⟩
  intro h
  rw [show resolve_ads 0x1c (.ok c1Dcs) c1LookupA c1LookupAAAA
        = .ok [mkV4 192 0 2 3, zeroSa] from rfl,
      show resolve_ads_spec 0x1c (.ok c1Dcs) c1LookupA c1LookupAAAA
        = .ok [mkV4 192 0 2 2, mkV4 192 0 2 3] from rfl] at h
  simp [mkV4, zeroSa] at h

/-- C2. A name that parses as a numeric IP literal and is not the zero
address makes `internal_resolve_name` return exactly that address as a
single-element list with port `PORT_NONE`, without consulting the name cache
and without dispatching any backend. -/
theorem C2_ip_literal_short_circuit (env : ResolveEnv) (name : String)
    (name_type : Nat) (order : List String) (ss : SockaddrStorage)
    (hp : env.parseIP name = some ss) (hz : is_zero_addr ss = false) :
    internal_resolve_name env name name_type order
      = ⟨.ok, [⟨ss, PORT_NONE⟩], [], false, none⟩ := by
  unfold internal_resolve_name
  rw [hp]
  simp [hz]

/-- Witness for C2 at the literal `10.0.0.5`. -/
theorem C2_ip_literal_short_circuit_witness :
    internal_resolve_name envNoBackend "10.0.0.5" 0x20 ["host"]
      = ⟨.ok, [⟨mkV4 10 0 0 5, PORT_NONE⟩], [], false, none⟩ :=
  C2_ip_literal_short_circuit envNoBackend "10.0.0.5" 0x20 ["host"]
    (mkV4 10 0 0 5) (by decide) (by decide)

/-- C3 counterexample. The claim states that `resolve_name` fails on the
zero-address literals. In the code, `resolve_name`'s IP-literal shortcut
(`if (is_ipaddress(name)) return interpret_string_addr(...)`) performs no
zero-address check — that check only exists inside `internal_resolve_name`,
which this shortcut bypasses — so `resolve_name("0.0.0.0")` succeeds and
returns the zero endpoint (and likewise for `"::"`). -/
theorem C3_counterexample_zero_literal :
    resolve_name envNoBackend "0.0.0.0" 0x20 false ["host"] = some (mkV4 0 0 0 0)
    ∧ resolve_name envNoBackend "::" 0x20 false ["host"]
        = some ⟨AF_INET6, List.replicate 16 0⟩ := by
  exact ⟨rfl, rfl⟩

/-- C3 amended: the zero-address rejection lives in `internal_resolve_name`,
which fails with `NT_STATUS_UNSUCCESSFUL` and returns no endpoint for a name
parsing as the zero address; `resolve_name` itself short-circuits IP literals
through `interpret_string_addr` without that check and succeeds, returning
the (zero) parsed address. -/
theorem C3_zero_address_amended (env : ResolveEnv) (name : String)
    (name_type : Nat) (prefer_ipv4 : Bool) (order : List String)
    (ss : SockaddrStorage)
    (hp : env.parseIP name = some ss) (hz : is_zero_addr ss = true) :
    internal_resolve_name env name name_type order
        = ⟨.unsuccessful, [], [], false, none⟩
    ∧ resolve_name env name name_type prefer_ipv4 order = some ss := by
  constructor
  · unfold internal_resolve_name
    rw [hp]
    simp [hz]
  · unfold resolve_name
    rw [hp]

/-- Witness for the amended C3 at the literal `0.0.0.0`. -/
theorem C3_zero_address_amended_witness :
    internal_resolve_name envNoBackend "0.0.0.0" 0x20 ["host"]
        = ⟨.unsuccessful, [], [], false, none⟩
    ∧ resolve_name envNoBackend "0.0.0.0" 0x20 false ["host"]
        = some (mkV4 0 0 0 0) :=
  C3_zero_address_amended envNoBackend "0.0.0.0" 0x20 false ["host"]
    (mkV4 0 0 0 0) (by decide) (by decide)

/-- The validator never changes the query mode recorded in the state. -/
theorem name_query_validator_preserves_mode (st : QState) (p : NmbPacket) :
    (name_query_validator st p).2.bcast = st.bcast
    ∧ (name_query_validator st p).2.bcast_star_query = st.bcast_star_query := by
  unfold name_query_validator
  split
  · exact ⟨rfl, rfl⟩
  · split
    · exact ⟨rfl, rfl⟩
    · dsimp only
      split
      · exact ⟨rfl, rfl⟩
      · exact ⟨rfl, rfl⟩

/-- On a broadcast-mode state, the validator accepts exactly a well-formed
positive response containing a unique name, and only when the query is not
the `"*"` wildcard. -/
theorem name_query_validator_bcast_fst (st : QState) (p : NmbPacket)
    (hb : st.bcast = true) :
    (name_query_validator st p).1 = (bcastAccept p && !st.bcast_star_query) := by
  unfold name_query_validator bcastAccept
  by_cases h1 : p.opcode = 0 <;>
  by_cases h2 : p.bcastFlag = true <;>
  by_cases h3 : p.rcode = 0 <;>
  by_cases h4 : p.ancount = 0 <;>
  simp [hb, h1, h2, h3, h4]

/-- Running packets never changes the query mode of the state. -/
theorem runPackets_preserves_mode (st : QState) (ps : List NmbPacket) :
    (runPackets st ps).1.bcast = st.bcast
    ∧ (runPackets st ps).1.bcast_star_query = st.bcast_star_query := by
  induction ps generalizing st with
  | nil => exact ⟨rfl, rfl⟩
  | cons p ps ih =>
    have h := name_query_validator_preserves_mode st p
    rcases hv : name_query_validator st p with ⟨acc, st2⟩
    rw [hv] at h
    cases acc with
    | true => simpa [runPackets, hv] using h
    | false =>
      have h2 := ih st2
      simp only [runPackets, hv]
      exact ⟨h2.1.trans h.1, h2.2.trans h.2⟩

/-- A broadcast run accepts (terminates before the deadline) exactly when
the query is not the wildcard and some delivered packet satisfies
`bcastAccept`. -/
theorem runPackets_accept_bcast (st : QState) (ps : List NmbPacket)
    (hb : st.bcast = true) :
    (runPackets st ps).2 = (!st.bcast_star_query && ps.any bcastAccept) := by
  induction ps generalizing st with
  | nil => simp [runPackets]
  | cons p ps ih =>
    have hfst := name_query_validator_bcast_fst st p hb
    have hpres := name_query_validator_preserves_mode st p
    rcases hv : name_query_validator st p with ⟨acc, st2⟩
    rw [hv] at hfst hpres
    simp only at hfst hpres
    cases acc with
    | true =>
      simp only [runPackets, hv, List.any_cons]
      cases hstar : st.bcast_star_query
      all_goals simp [hstar] at hfst ⊢
      all_goals simp [hfst]
    | false =>
      have hb2 : st2.bcast = true := hpres.1.trans hb
      have hrec := ih st2 hb2
      simp only [runPackets, hv, List.any_cons, hrec, hpres.2]
      cases hstar : st.bcast_star_query with
      | true => simp [hstar]
      | false =>
        have hna : bcastAccept p = false := by
          rw [hstar] at hfst
          simpa using hfst.symm
        simp [hna, hstar]

/-- C4 counterexample. The claim states that expiry of the broadcast
deadline completes the query as success carrying the set collected so far.
When no address was collected, `name_query_recv` relabels the timeout OK but
then fails with `NT_STATUS_NOT_FOUND` on the empty set: deadline expiry with
nothing collected is a failure, not a success. -/
theorem C4_counterexample_empty_broadcast :
    name_query_result emptyIfaceEnv "FOO" true [] = .error .notFound := rfl

/-- C4 amended: broadcast responses are collected until the deadline, and
collection terminates early exactly when a response satisfies `bcastAccept`
(a well-formed positive answer containing a unique, non-group name) and the
queried name is not the wildcard `"*"`; expiry of the deadline completes the
query as success carrying the addresses collected so far when that set is
non-empty, and as `NT_STATUS_NOT_FOUND` when it is empty. -/
theorem C4_broadcast_collection_amended (env : IfaceEnv) (name : String)
    (ps : List NmbPacket) :
    (runPackets (initQState name true) ps).2
        = (!(name == "*") && ps.any bcastAccept)
    ∧ ((runPackets (initQState name true) ps).2 = false →
        name_query_result env name true ps
          = (if (runPackets (initQState name true) ps).1.addrs.isEmpty
             then .error .notFound
             else .ok (sort_addr_list env (runPackets (initQState name true) ps).1.addrs))) := by
  constructor
  · have h := runPackets_accept_bcast (initQState name true) ps rfl
    simpa [initQState] using h
  · intro hto
    have hb : (runPackets (initQState name true) ps).1.bcast = true :=
      (runPackets_preserves_mode (initQState name true) ps).1
    simp [name_query_result, name_query_recv, hto, hb]

/-- Witness for the amended C4: a broadcast query for `"FOO"` receiving one
group-only response does not exit early, and the deadline completes it as
success with the collected address. -/
theorem C4_broadcast_collection_amended_witness :
    ((runPackets (initQState "FOO" true) [⟨0, true, false, false, false, false, false, 0, 1, [(0x8000, [1, 2, 3, 4])]⟩]).2
        = (!("FOO" == "*")
            && List.any [⟨0, true, false, false, false, false, false, 0, 1, [(0x8000, [1, 2, 3, 4])]⟩] bcastAccept))
    ∧ ((runPackets (initQState "FOO" true) [⟨0, true, false, false, false, false, false, 0, 1, [(0x8000, [1, 2, 3, 4])]⟩]).2 = false →
        name_query_result emptyIfaceEnv "FOO" true [⟨0, true, false, false, false, false, false, 0, 1, [(0x8000, [1, 2, 3, 4])]⟩]
          = (if (runPackets (initQState "FOO" true) [⟨0, true, false, false, false, false, false, 0, 1, [(0x8000, [1, 2, 3, 4])]⟩]).1.addrs.isEmpty
             then .error .notFound
             else .ok (sort_addr_list emptyIfaceEnv (runPackets (initQState "FOO" true) [⟨0, true, false, false, false, false, false, 0, 1, [(0x8000, [1, 2, 3, 4])]⟩]).1.addrs))) :=
  C4_broadcast_collection_amended emptyIfaceEnv "FOO"
    [⟨0, true, false, false, false, false, false, 0, 1, [(0x8000, [1, 2, 3, 4])]⟩]

/-- C5. A unicast (non-broadcast) response with `opcode == 0` and
`rcode != 0` is accepted by the validator as a negative answer, and the
query completes with `NT_STATUS_NOT_FOUND` rather than a parse or validation
error. -/
theorem C5_unicast_negative_response (env : IfaceEnv) (name : String)
    (p : NmbPacket) (ps : List NmbPacket)
    (hop : p.opcode = 0) (hrc : p.rcode ≠ 0) :
    (name_query_validator (initQState name false) p).1 = true
    ∧ name_query_result env name false (p :: ps) = .error .notFound := by
  have hval : name_query_validator (initQState name false) p
      = (true, { initQState name false with validate_error := .notFound }) := by
    unfold name_query_validator
    simp [initQState, hop, hrc]
  constructor
  · rw [hval]
  · unfold name_query_result
    simp only [runPackets]
    rw [hval]
    simp [name_query_recv, initQState]

/-- Witness for C5: a concrete negative response (`rcode 3`). -/
theorem C5_unicast_negative_response_witness :
    (name_query_validator (initQState "FOO" false) negativePacket).1 = true
    ∧ name_query_result emptyIfaceEnv "FOO" false [negativePacket]
        = .error .notFound :=
  C5_unicast_negative_response emptyIfaceEnv "FOO" negativePacket []
    (by decide) (by decide)

/-- C6. In `query_wins_list`, the servers marked dead (`wins_srv_died`) are
exactly the ones whose 2-second per-server deadline fired (the leading run
of `NT_STATUS_IO_TIMEOUT` outcomes); the tag's result is determined by the
first non-timeout outcome — a success completes the tag, any non-timeout
error (including a negative `NT_STATUS_NOT_FOUND` response) fails the tag
immediately without advancing — and exhausting all servers fails the tag
with `NT_STATUS_NOT_FOUND`. -/
theorem C6_query_wins_list_behaviour {α : Type}
    (servers : List (α × Except NTStatus (List SockaddrStorage))) :
    (query_wins_list servers).2
        = (servers.takeWhile (fun q => isTimeoutOutcome q.2)).map Prod.fst
    ∧ (query_wins_list servers).1
        = (match servers.dropWhile (fun q => isTimeoutOutcome q.2) with
           | [] => .error .notFound
           | q :: _ => q.2) := by
  induction servers with
  | nil => exact ⟨rfl, rfl⟩
  | cons q rest ih =>
    rcases q with ⟨srv, outcome⟩
    cases outcome with
    | ok addrs =>
      simp [query_wins_list, List.takeWhile_cons, List.dropWhile_cons,
        isTimeoutOutcome]
    | error e =>
      by_cases he : e = NTStatus.ioTimeout
      · subst he
        simp [query_wins_list, List.takeWhile_cons, List.dropWhile_cons,
          isTimeoutOutcome, ih.1, ih.2]
      · simp [query_wins_list, List.takeWhile_cons, List.dropWhile_cons,
          isTimeoutOutcome, he]

/-- `filter_out_nbt_lookup` is the order-preserving filter dropping exactly
the `lmhosts`/`wins`/`bcast` tokens. -/
theorem filter_out_nbt_lookup_eq_filter (order : List String) :
    filter_out_nbt_lookup order = order.filter (fun t => !isNbtTok t) := by
  induction order with
  | nil => rfl
  | cons t rest ih =>
    unfold filter_out_nbt_lookup
    by_cases h1 : strequal t "lmhosts" = true <;>
    by_cases h2 : strequal t "wins" = true <;>
    by_cases h3 : strequal t "bcast" = true <;>
    simp [List.filter_cons, isNbtTok, h1, h2, h3, ih]

/-- `finishResolve` reports exactly the dispatch log it was given. -/
theorem finishResolve_dispatched (name : String) (st : NTStatus)
    (ss_list : List SockaddrStorage) (ty : Nat) (log : List BackendCall) :
    (finishResolve name st ss_list ty log).dispatched = log := by
  unfold finishResolve
  rcases convert_ss2service ss_list with _ | ipl0
  · rfl
  · rfl

/-- The backend loop over an order free of NBT tokens never dispatches an
NBT backend (given a dispatch log already free of them). -/
theorem runBackends_no_nbt (env : ResolveEnv) (name : String) (ty : Nat)
    (order : List String) (hord : ∀ t ∈ order, isNbtTok t = false) :
    ∀ last log, (∀ c ∈ log, c.isNbt = false) →
      ∀ c ∈ (runBackends env name ty order last log).2.2, c.isNbt = false := by
  induction order with
  | nil =>
    intro last log hlog c hc
    exact hlog c hc
  | cons t rest ih =>
    intro last log hlog
    have ht : isNbtTok t = false := hord t (List.mem_cons_self t rest)
    have hrest : ∀ x ∈ rest, isNbtTok x = false :=
      fun x hx => hord x (List.mem_cons_of_mem t hx)
    have ht1 : strequal t "lmhosts" = false := by
      revert ht; unfold isNbtTok; cases strequal t "lmhosts" <;> simp
    have ht2 : strequal t "wins" = false := by
      revert ht; unfold isNbtTok; cases strequal t "wins" <;> simp
    have ht3 : strequal t "bcast" = false := by
      revert ht; unfold isNbtTok; cases strequal t "bcast" <;> simp
    have happ : ∀ call : BackendCall, call.isNbt = false →
        ∀ c ∈ log ++ [call], c.isNbt = false := by
      intro call hcall c hc
      rcases List.mem_append.mp hc with h | h
      · exact hlog c h
      · rw [List.mem_singleton.mp h]
        exact hcall
    unfold runBackends
    rw [ht1, ht2, ht3]
    by_cases h1 : (strequal t "host" || strequal t "hosts") = true
    · rw [if_pos h1]
      cases henv : env.run (.hosts name ty) with
      | ok l => simpa using happ (.hosts name ty) rfl
      | error e => exact ih hrest e (log ++ [.hosts name ty]) (happ (.hosts name ty) rfl)
    · rw [if_neg (by simpa using h1)]
      by_cases h2 : strequal t "kdc" = true
      · rw [if_pos h2]
        cases henv : env.run (.ads name KDC_NAME_TYPE) with
        | ok l => simpa using happ (.ads name KDC_NAME_TYPE) rfl
        | error e => exact ih hrest e (log ++ [.ads name KDC_NAME_TYPE]) (happ (.ads name KDC_NAME_TYPE) rfl)
      · rw [if_neg (by simpa using h2)]
        by_cases h3 : strequal t "ads" = true
        · rw [if_pos h3]
          cases henv : env.run (.ads name ty) with
          | ok l => simpa using happ (.ads name ty) rfl
          | error e => exact ih hrest e (log ++ [.ads name ty]) (happ (.ads name ty) rfl)
        · rw [if_neg (by simpa using h3)]
          simp only [Bool.false_eq_true, if_false]
          exact ih hrest last log hlog

/-- C7. For an NBT-ineligible name (longer than 15 characters or containing
a dot), `filter_out_nbt_lookup` removes exactly `lmhosts`, `wins` and `bcast`
while preserving the relative order of the remaining backends (it is an
order-preserving sublist), and the driver dispatches no NBT backend; a name
of exactly 15 dot-free characters keeps the full resolve order
(NBT-eligible). -/
theorem C7_nbt_filter (env : ResolveEnv) (name : String) (ty : Nat)
    (order : List String)
    (hn : nbtIneligible name = true)
    (hp : env.parseIP name = none)
    (hc : env.cacheFetch name ty = none) :
    filter_out_nbt_lookup order = order.filter (fun t => !isNbtTok t)
    ∧ (filter_out_nbt_lookup order).Sublist order
    ∧ (∀ c ∈ (internal_resolve_name env name ty order).dispatched, c.isNbt = false)
    ∧ (∀ nm : String, strLen nm = 15 → hasDot nm = false →
        effectiveResolveOrder nm order = order) := by
  refine ⟨filter_out_nbt_lookup_eq_filter order, ?_, ?_, ?_⟩
  · rw [filter_out_nbt_lookup_eq_filter]
    exact List.filter_sublist order
  · unfold internal_resolve_name
    rw [hp, hc]
    by_cases hnull : (order.head? == some "NULL") = true
    · simp [hnull]
    · simp only [hnull, Bool.false_eq_true, if_false]
      set order0 := if order.isEmpty then ["host"] else order with horder0
      have heff : effectiveResolveOrder name order0 = filter_out_nbt_lookup order0 := by
        simp [effectiveResolveOrder, hn]
      have hord : ∀ t ∈ filter_out_nbt_lookup order0, isNbtTok t = false := by
        rw [filter_out_nbt_lookup_eq_filter]
        intro t htm
        have := List.of_mem_filter htm
        simpa using this
      have hnbt := runBackends_no_nbt env name ty (filter_out_nbt_lookup order0) hord
        NTStatus.unsuccessful [] (by intro c hc2; cases hc2)
      rw [heff]
      rcases hrb : runBackends env name ty (filter_out_nbt_lookup order0)
          NTStatus.unsuccessful [] with ⟨st, osl, log⟩
      rw [hrb] at hnbt
      simp only at hnbt
      cases osl with
      | none => simpa using hnbt
      | some sl =>
        rcases sl with ⟨ss_list, stored_ty⟩
        intro c hcmem
        rw [finishResolve_dispatched] at hcmem
        exact hnbt c hcmem
  · intro nm h15 hnd
    have : nbtIneligible nm = false := by
      simp [nbtIneligible, h15, hnd]
    simp [effectiveResolveOrder, this]

/-- Witness for C7 at the dotted name `host.example.com` with the default
resolve order. -/
theorem C7_nbt_filter_witness :
    filter_out_nbt_lookup ["lmhosts", "wins", "host", "bcast"]
        = List.filter (fun t => !isNbtTok t) ["lmhosts", "wins", "host", "bcast"]
    ∧ (filter_out_nbt_lookup ["lmhosts", "wins", "host", "bcast"]).Sublist
        ["lmhosts", "wins", "host", "bcast"]
    ∧ (∀ c ∈ (internal_resolve_name envNoBackend "host.example.com" 0x20
          ["lmhosts", "wins", "host", "bcast"]).dispatched, c.isNbt = false)
    ∧ (∀ nm : String, strLen nm = 15 → hasDot nm = false →
        effectiveResolveOrder nm ["lmhosts", "wins", "host", "bcast"]
          = ["lmhosts", "wins", "host", "bcast"]) :=
  C7_nbt_filter envNoBackend "host.example.com" 0x20
    ["lmhosts", "wins", "host", "bcast"] (by decide) (by decide) rfl

/-- C8 counterexample. The claim states that a result produced by the `kdc`
backend is not stored in the name cache, leaving the cache unchanged. In the
code the store is not skipped: the `kdc` branch overwrites `name_type` with
`KDC_NAME_TYPE` before jumping to `done:`, and `namecache_store` then runs
with that type — the cache is written, under the synthetic type `0xDCDC`. -/
theorem C8_counterexample_kdc_store :
    (internal_resolve_name envKdc "realm.example" 0x1C ["kdc"]).cacheStored
      = some ("realm.example", KDC_NAME_TYPE, [mkV4 192 0 2 7]) := rfl

/-- C8 amended: when the backend that produced the successful result is
`kdc`, the positive result IS stored in the name cache, but under the
synthetic type `KDC_NAME_TYPE` (`0xDCDC`) instead of the requested type (so
ports are not cached under the real type, and the cache entry for the
requested `(name, type)` key is not written by this lookup). -/
theorem C8_kdc_cache_store_amended (env : ResolveEnv) (name : String)
    (ty : Nat) (order : List String) (l : List SockaddrStorage)
    (log : List BackendCall)
    (hp : env.parseIP name = none)
    (hc : env.cacheFetch name ty = none)
    (hnull : (order.head? == some "NULL") = false)
    (hrun : runBackends env name ty
        (effectiveResolveOrder name (if order.isEmpty then ["host"] else order))
        .unsuccessful [] = (.ok, some (l, KDC_NAME_TYPE), log)) :
    internal_resolve_name env name ty order
        = finishResolve name .ok l KDC_NAME_TYPE log
    ∧ (∀ nm t sl,
        (internal_resolve_name env name ty order).cacheStored = some (nm, t, sl) →
          nm = name ∧ t = KDC_NAME_TYPE) := by
  have hmain : internal_resolve_name env name ty order
      = finishResolve name .ok l KDC_NAME_TYPE log := by
    unfold internal_resolve_name
    rw [hp, hc, hnull]
    simp only [Bool.false_eq_true, if_false]
    rw [hrun]
  refine ⟨hmain, ?_⟩
  intro nm t sl hstore
  rw [hmain] at hstore
  unfold finishResolve at hstore
  rcases hconv : convert_ss2service l with _ | ipl0
  · rw [hconv] at hstore
    simp at hstore
  · rw [hconv] at hstore
    simp only at hstore
    by_cases hemp : (remove_duplicate_addrs2 ipl0).isEmpty = true
    · simp [hemp] at hstore
    · simp only [hemp, Bool.false_eq_true, if_false, Option.some.injEq,
        Prod.mk.injEq] at hstore
      exact ⟨hstore.1.symm, hstore.2.1.symm⟩

/-- Witness for the amended C8: the concrete `kdc`-only environment. -/
theorem C8_kdc_cache_store_amended_witness :
    internal_resolve_name envKdc "realm.example" 0x1C ["kdc"]
        = finishResolve "realm.example" .ok [mkV4 192 0 2 7] KDC_NAME_TYPE
            [.ads "realm.example" KDC_NAME_TYPE]
    ∧ (∀ nm t sl,
        (internal_resolve_name envKdc "realm.example" 0x1C ["kdc"]).cacheStored
            = some (nm, t, sl) →
          nm = "realm.example" ∧ t = KDC_NAME_TYPE) :=
  C8_kdc_cache_store_amended envKdc "realm.example" 0x1C ["kdc"]
    [mkV4 192 0 2 7] [.ads "realm.example" KDC_NAME_TYPE]
    (by decide) rfl rfl rfl

/-- C9 counterexample. The claim states that when both racing paths have
failed, the surfaced error is the socket path's in preference. In the code
each handler surfaces its own status when the other path is already gone, so
the error that surfaces is the one of the path failing second: here the
socket fails first (`NT_STATUS_CONNECTION_REFUSED`), the relay reader fails
second (`NT_STATUS_END_OF_FILE`), and the reader's error surfaces. -/
theorem C9_counterexample_socket_preference :
    (sprRun (fun _ => true) (-1)
        [.socketFail .connectionRefused, .readerFail .endOfFile]).result
      = some (.error .endOfFile)
    ∧ (sprRun (fun _ => true) (-1)
        [.socketFail .connectionRefused, .readerFail .endOfFile]).result
      ≠ some (.error .connectionRefused) := by
  refine ⟨rfl, ?_⟩
  intro h
  rw [show (sprRun (fun _ => true) (-1)
      [.socketFail .connectionRefused, .readerFail .endOfFile]).result
      = some (.error .endOfFile) from rfl] at h
  simp at h

/-- C9 amended: a failure of one racing path while the other is still
outstanding is swallowed and the request keeps waiting; the request fails
only when both paths have failed, and the error surfaced is that of the path
that failed second (the reader's error when the socket failed first, the
socket's error when the reader failed first). -/
theorem C9_race_failure_amended (v : NmbPacket → Bool) (t : Int)
    (e1 e2 : NTStatus) :
    (sprStep v t sprInit (.socketFail e1)).result = none
    ∧ (sprStep v t sprInit (.readerFail e1)).result = none
    ∧ (sprRun v t [.socketFail e1, .readerFail e2]).result = some (.error e2)
    ∧ (sprRun v t [.readerFail e1, .socketFail e2]).result = some (.error e2) :=
  ⟨rfl, rfl, rfl, rfl⟩

/-- On two same-family inet addresses, `addr_compare` sorts no-later exactly
by non-increasing proximity score. -/
theorem addrLe_v4_iff (env : IfaceEnv) (a b : SockaddrStorage)
    (ha : a.family = AF_INET) (hb : b.family = AF_INET) :
    addrLe env a b = true ↔ proximityScore env b ≤ proximityScore env a := by
  unfold addrLe addr_compare validFamily
  rw [ha, hb]
  simp only [beq_self_eq_true, Bool.true_or, Bool.not_true, Bool.false_or,
    Bool.or_self, ne_eq, eq_self_iff_true, not_true_eq_false, if_false,
    Bool.false_eq_true, ite_false, ite_true, decide_eq_true_eq]
  omega

/-- `addrLe` is total on same-family inet addresses. -/
theorem addrLe_v4_total (env : IfaceEnv) (a b : SockaddrStorage)
    (ha : a.family = AF_INET) (hb : b.family = AF_INET) :
    addrLe env a b = true ∨ addrLe env b a = true := by
  rcases Nat.le_total (proximityScore env b) (proximityScore env a) with h | h
  · exact Or.inl ((addrLe_v4_iff env a b ha hb).mpr h)
  · exact Or.inr ((addrLe_v4_iff env b a hb ha).mpr h)

/-- `addrLe` is transitive on same-family inet addresses. -/
theorem addrLe_v4_trans (env : IfaceEnv) (a b c : SockaddrStorage)
    (ha : a.family = AF_INET) (hb : b.family = AF_INET) (hc : c.family = AF_INET)
    (hab : addrLe env a b = true) (hbc : addrLe env b c = true) :
    addrLe env a c = true :=
  (addrLe_v4_iff env a c ha hc).mpr
    (Nat.le_trans ((addrLe_v4_iff env b c hb hc).mp hbc)
      ((addrLe_v4_iff env a b ha hb).mp hab))

/-- Inserting into a list is a permutation of consing. -/
theorem orderedInsertCmp_perm (le : α → α → Bool) (a : α) :
    ∀ l : List α, (orderedInsertCmp le a l).Perm (a :: l) := by
  intro l
  induction l with
  | nil => exact List.Perm.refl _
  | cons b l ih =>
    unfold orderedInsertCmp
    by_cases h : le a b = true
    · rw [if_pos h]
    · rw [if_neg h]
      exact ((ih.cons b).trans (List.Perm.swap a b l))

/-- The insertion-sort model permutes its input. -/
theorem insertionSortCmp_perm (le : α → α → Bool) :
    ∀ l : List α, (insertionSortCmp le l).Perm l := by
  intro l
  induction l with
  | nil => exact List.Perm.refl _
  | cons a l ih =>
    exact (orderedInsertCmp_perm le a (insertionSortCmp le l)).trans (ih.cons a)

/-- Inserting an element that satisfies `P` into a `P`-homogeneous sorted
list keeps it sorted, for a comparator total and transitive on `P`. -/
theorem orderedInsertCmp_pairwise (le : α → α → Bool) (P : α → Prop)
    (htot : ∀ x y, P x → P y → le x y = true ∨ le y x = true)
    (htrans : ∀ x y z, P x → P y → P z → le x y = true → le y z = true →
      le x z = true)
    (a : α) (ha : P a) :
    ∀ l : List α, (∀ x ∈ l, P x) →
      l.Pairwise (fun x y => le x y = true) →
      (orderedInsertCmp le a l).Pairwise (fun x y => le x y = true) := by
  intro l
  induction l with
  | nil =>
    intro _ _
    exact List.pairwise_singleton _ a
  | cons b l ih =>
    intro hmem hp
    have hPb : P b := hmem b (List.mem_cons_self b l)
    have hPl : ∀ x ∈ l, P x := fun x hx => hmem x (List.mem_cons_of_mem b hx)
    rw [List.pairwise_cons] at hp
    unfold orderedInsertCmp
    by_cases hab : le a b = true
    · rw [if_pos hab]
      refine List.Pairwise.cons ?_ (List.Pairwise.cons hp.1 hp.2)
      intro x hx
      rcases List.mem_cons.mp hx with rfl | hx
      · exact hab
      · exact htrans a b x ha hPb (hPl x hx) hab (hp.1 x hx)
    · rw [if_neg hab]
      refine List.Pairwise.cons ?_ (ih hPl hp.2)
      intro x hx
      have hx2 := (orderedInsertCmp_perm le a l).mem_iff.mp hx
      rcases List.mem_cons.mp hx2 with hxa | hx2
      · rw [hxa]
        rcases htot a b ha hPb with h | h
        · exact absurd h hab
        · exact h
      · exact hp.1 x hx2

/-- The insertion-sort model sorts any `P`-homogeneous list, for a comparator
total and transitive on `P`. -/
theorem insertionSortCmp_pairwise (le : α → α → Bool) (P : α → Prop)
    (htot : ∀ x y, P x → P y → le x y = true ∨ le y x = true)
    (htrans : ∀ x y z, P x → P y → P z → le x y = true → le y z = true →
      le x z = true) :
    ∀ l : List α, (∀ x ∈ l, P x) →
      (insertionSortCmp le l).Pairwise (fun x y => le x y = true) := by
  intro l
  induction l with
  | nil =>
    intro _
    exact List.Pairwise.nil
  | cons a l ih =>
    intro hmem
    have hPa : P a := hmem a (List.mem_cons_self a l)
    have hPl : ∀ x ∈ l, P x := fun x hx => hmem x (List.mem_cons_of_mem a hx)
    have hsub : ∀ x ∈ insertionSortCmp le l, P x := by
      intro x hx
      exact hPl x ((insertionSortCmp_perm le l).mem_iff.mp hx)
    exact orderedInsertCmp_pairwise le P htot htrans a hPa
      (insertionSortCmp le l) hsub (ih hPl)

/-- `sort_addr_list` permutes its input. -/
theorem sort_addr_list_perm (env : IfaceEnv) (l : List SockaddrStorage) :
    (sort_addr_list env l).Perm l := by
  unfold sort_addr_list
  by_cases h : l.length ≤ 1
  · rw [if_pos h]
  · rw [if_neg h]
    exact insertionSortCmp_perm (addrLe env) l

/-- `sort_addr_list` leaves an all-IPv4 list pairwise ordered by
`addr_compare`. -/
theorem sort_addr_list_pairwise (env : IfaceEnv) (l : List SockaddrStorage)
    (hl : ∀ a ∈ l, a.family = AF_INET) :
    (sort_addr_list env l).Pairwise (fun a b => addrLe env a b = true) := by
  unfold sort_addr_list
  by_cases h : l.length ≤ 1
  · rw [if_pos h]
    match l with
    | [] => exact List.Pairwise.nil
    | [x] => exact List.pairwise_singleton _ x
    | x :: y :: rest => simp at h
  · rw [if_neg h]
    exact insertionSortCmp_pairwise (addrLe env) (fun a => a.family = AF_INET)
      (fun x y hx hy => addrLe_v4_total env x y hx hy)
      (fun x y z hx hy hz => addrLe_v4_trans env x y z hx hy hz) l hl

/-- The validator's address-collection loop only ever appends IPv4
addresses. -/
theorem collectAnswerAddrs_family (recs : List (Nat × List Nat)) :
    ∀ existing : List SockaddrStorage,
      (∀ a ∈ existing, a.family = AF_INET) →
      ∀ a ∈ collectAnswerAddrs existing recs, a.family = AF_INET := by
  induction recs with
  | nil =>
    intro existing hex a ha
    exact hex a ha
  | cons r rest ih =>
    intro existing hex a ha
    rcases r with ⟨flags, ip⟩
    unfold collectAnswerAddrs at ha
    by_cases hskip :
        (is_zero_addr ⟨AF_INET, ip⟩ || existing.contains ⟨AF_INET, ip⟩) = true
    · rw [if_pos hskip] at ha
      exact ih existing hex a ha
    · rw [if_neg hskip] at ha
      refine ih (existing ++ [⟨AF_INET, ip⟩]) ?_ a ha
      intro x hx
      rcases List.mem_append.mp hx with hx | hx
      · exact hex x hx
      · rw [List.mem_singleton.mp hx]

/-- The validator keeps the collected set all-IPv4. -/
theorem name_query_validator_family (st : QState) (p : NmbPacket)
    (hst : ∀ a ∈ st.addrs, a.family = AF_INET) :
    ∀ a ∈ (name_query_validator st p).2.addrs, a.family = AF_INET := by
  unfold name_query_validator
  split
  · exact hst
  · split
    · exact hst
    · dsimp only
      split
      · exact collectAnswerAddrs_family p.answerRecs st.addrs hst
      · exact collectAnswerAddrs_family p.answerRecs st.addrs hst

/-- A whole run keeps the collected set all-IPv4. -/
theorem runPackets_family (ps : List NmbPacket) :
    ∀ st : QState, (∀ a ∈ st.addrs, a.family = AF_INET) →
      ∀ a ∈ (runPackets st ps).1.addrs, a.family = AF_INET := by
  induction ps with
  | nil =>
    intro st hst
    exact hst
  | cons p ps ih =>
    intro st hst
    have hv := name_query_validator_family st p hst
    rcases hvp : name_query_validator st p with ⟨acc, st2⟩
    rw [hvp] at hv
    simp only at hv
    cases acc with
    | true => simpa [runPackets, hvp] using hv
    | false =>
      simp only [runPackets, hvp]
      exact ih st2 hv

/-- A successful `name_query_recv` hands back exactly the sorted collected
set. -/
theorem name_query_recv_ok (env : IfaceEnv) (st : QState) (status : NTStatus)
    (out : List SockaddrStorage)
    (h : name_query_recv env st status = .ok out) :
    out = sort_addr_list env st.addrs := by
  by_cases hb : (st.bcast && status == NTStatus.ioTimeout) = true <;>
  by_cases hs : status = NTStatus.ok <;>
  by_cases he : st.addrs.isEmpty = true <;>
  simp [name_query_recv, hb, hs, he] at h <;>
  exact h.symm

/-- C10. Every successful `name_query` hands back, through
`name_query_recv`, the collected addresses sorted by the proximity
comparator `addr_compare`: the output is pairwise ordered by `addr_compare`
and is a permutation of the collected set. -/
theorem C10_recv_sorted (env : IfaceEnv) (name : String) (bcast : Bool)
    (ps : List NmbPacket) (out : List SockaddrStorage)
    (h : name_query_result env name bcast ps = .ok out) :
    out.Pairwise (fun a b => addrLe env a b = true)
    ∧ out.Perm (runPackets (initQState name bcast) ps).1.addrs := by
  unfold name_query_result at h
  have hout := name_query_recv_ok env _ _ out h
  have hfam : ∀ a ∈ (runPackets (initQState name bcast) ps).1.addrs,
      a.family = AF_INET := by
    refine runPackets_family ps (initQState name bcast) ?_
    intro a ha
    cases ha
  constructor
  · rw [hout]
    exact sort_addr_list_pairwise env _ hfam
  · rw [hout]
    exact sort_addr_list_perm env _

/-- Witness for C10: a unicast query receiving one positive response with
two addresses. -/
theorem C10_recv_sorted_witness :
    ([mkV4 1 1 1 1, mkV4 2 2 2 2].Pairwise
        (fun a b => addrLe emptyIfaceEnv a b = true))
    ∧ [mkV4 1 1 1 1, mkV4 2 2 2 2].Perm
        (runPackets (initQState "FOO" false) [positivePacket]).1.addrs :=
  C10_recv_sorted emptyIfaceEnv "FOO" false [positivePacket]
    [mkV4 1 1 1 1, mkV4 2 2 2 2] rfl
